import Mathlib

/-!
Verification of the query-engine repository (logical plans, projection
pushdown, physical expressions, and the vectorized operator pipeline).

The Rust sources are shallowly embedded:
* arrow2 arrays are typed lists with per-element validity
  (an element of type `Option a`, `none` meaning null);
* i32 arithmetic wraps at 2^31 (two's complement), made explicit by
  `wrap32`; f64 values are modeled as rationals (IEEE rounding and NaN
  behavior are outside the scope of the verified claims);
* fallible Rust functions returning Result become `Except Error`;
  Rust panics (unwrap / index out of bounds) are a separate `RunResult`
  (or `Outcome`) constructor, kept distinct from returned errors;
* external arrow2 kernels (elementwise comparison / arithmetic, filter,
  aggregate scalars, the parquet reader) are modeled from the spec, as
  marked in their doc comments.
-/

namespace QueryEngine

/-- Arrow physical types that occur in the engine
(arrow2 PhysicalType, restricted to the variants the code dispatches on;
timestamp stands for every column type outside the four supported ones). -/
inductive PhysType where
  | int32
  | float64
  | utf8
  | boolean
  | null
  | timestamp
  deriving DecidableEq, Repr

/-- Arrow data types (arrow2 DataType, same restriction). -/
inductive DataTy where
  | int32
  | float64
  | utf8
  | boolean
  | null
  | timestamp
  deriving DecidableEq, Repr

/-- DataType::to_physical_type. -/
def DataTy.toPhysicalType : DataTy → PhysType
  | .int32 => .int32
  | .float64 => .float64
  | .utf8 => .utf8
  | .boolean => .boolean
  | .null => .null
  | .timestamp => .timestamp

/-- Debug rendering of a PhysicalType (Rust derive(Debug)). -/
def PhysType.debugStr : PhysType → String
  | .int32 => "Primitive(Int32)"
  | .float64 => "Primitive(Float64)"
  | .utf8 => "Utf8"
  | .boolean => "Boolean"
  | .null => "Null"
  | .timestamp => "Timestamp"

/-- Debug rendering of a DataType (Rust derive(Debug)). -/
def DataTy.debugStr : DataTy → String
  | .int32 => "Int32"
  | .float64 => "Float64"
  | .utf8 => "Utf8"
  | .boolean => "Boolean"
  | .null => "Null"
  | .timestamp => "Timestamp(Nanosecond, None)"

/-- A typed arrow2 scalar (Box of dyn Scalar): a data type together with an
optional value; NullScalar is the separate null variant. -/
inductive ScalarValue where
  | int32 (v : Option Int)
  | float64 (v : Option Rat)
  | utf8 (v : Option String)
  | boolean (v : Option Bool)
  | null
  | timestamp (v : Option Int)
  deriving DecidableEq, Repr

/-- Scalar::data_type. -/
def ScalarValue.dataType : ScalarValue → DataTy
  | .int32 _ => .int32
  | .float64 _ => .float64
  | .utf8 _ => .utf8
  | .boolean _ => .boolean
  | .null => .null
  | .timestamp _ => .timestamp

/-- A typed arrow2 array: a list of optional elements (none = null). -/
inductive ArrayValue where
  | int32 (xs : List (Option Int))
  | float64 (xs : List (Option Rat))
  | utf8 (xs : List (Option String))
  | boolean (xs : List (Option Bool))
  | timestamp (xs : List (Option Int))
  deriving DecidableEq, Repr

/-- Array::len. -/
def ArrayValue.len : ArrayValue → Nat
  | .int32 xs => xs.length
  | .float64 xs => xs.length
  | .utf8 xs => xs.length
  | .boolean xs => xs.length
  | .timestamp xs => xs.length

/-- Array::data_type().to_physical_type(). -/
def ArrayValue.physicalType : ArrayValue → PhysType
  | .int32 _ => .int32
  | .float64 _ => .float64
  | .utf8 _ => .utf8
  | .boolean _ => .boolean
  | .timestamp _ => .timestamp

/-- Array::data_type(). -/
def ArrayValue.dataType : ArrayValue → DataTy
  | .int32 _ => .int32
  | .float64 _ => .float64
  | .utf8 _ => .utf8
  | .boolean _ => .boolean
  | .timestamp _ => .timestamp

/-- Modelled from the spec: the Debug rendering of a dyn Array
(only used as the payload of DifferentSizes errors). -/
def ArrayValue.debugStr (a : ArrayValue) : String :=
  a.dataType.debugStr ++ "[" ++ toString a.len ++ "]"

/-- ColumnarValue (src/columnar_value.rs): an Array or a Scalar. -/
inductive ColumnarValue where
  | array (a : ArrayValue)
  | scalar (s : ScalarValue)
  deriving DecidableEq, Repr

/-- A batch of columns (arrow2 Chunk of Arc of dyn Array). -/
abbrev Batch := List ArrayValue

/-- Chunk::len: the length of the first array, or 0 when there are none. -/
def batchLen : Batch → Nat
  | [] => 0
  | a :: _ => a.len

/-- The engine's error enum (error.rs, query-engine version). -/
inductive Error where
  | ExceedingBoundsError (i : Nat)
  | NoFieldInLogicalPlan (s : String)
  | DifferentSizes (a b : String)
  | PhysicalExpressionNotSuported (s : String)
  | PhysicalPlanNotSuported (s : String)
  | PhysicalTypeNotSuported (s : String)
  | PrimitiveTypeNotSuported (s : String)
  | MissingChildren (s : String)
  | MissingInputPhysicalPlan (s : String)
  | EmptyHashmapForAggregate
  | DowncastError
  | ScalarToArrayError (s : String)
  | NoBooleanArrayForFilter
  | IoError (s : String)
  | ArrowError (s : String)
  deriving DecidableEq, Repr

/-- Whether an error is the PhysicalTypeNotSuported kind. -/
def Error.isPhysicalTypeNotSuported : Error → Bool
  | .PhysicalTypeNotSuported _ => true
  | _ => false

/-- Outcome of a Rust computation that returns Result but may also panic:
ok value, returned error, or panic. -/
inductive Outcome (α : Type) where
  | ok (a : α)
  | err (e : Error)
  | panicked (msg : String)
  deriving DecidableEq, Repr

/-- Outcome of a Rust computation that may panic but returns no Result. -/
inductive RunResult (α : Type) where
  | ok (a : α)
  | panicked (msg : String)
  deriving DecidableEq, Repr

def RunResult.bind : RunResult α → (α → RunResult β) → RunResult β
  | .ok a, f => f a
  | .panicked m, _ => .panicked m

def RunResult.map (f : α → β) : RunResult α → RunResult β
  | .ok a => .ok (f a)
  | .panicked m => .panicked m

instance : Monad RunResult where
  pure := RunResult.ok
  bind := RunResult.bind
  map := RunResult.map

/-- Panic message of Result::unwrap on an Err. -/
def unwrapErrMsg : String := "called Result::unwrap() on an Err value"

/-- Panic message of Option::unwrap / Iterator::next().unwrap() on None. -/
def unwrapNoneMsg : String := "called Option::unwrap() on a None value"

/- ## Modeled arrow2 kernels (external collaborators, spec section 6) -/

/-- i32 two's-complement wrapping (Rust release-mode arithmetic). -/
def wrap32 (z : Int) : Int := (z + 2 ^ 31) % 2 ^ 32 - 2 ^ 31

inductive MathKind where
  | add
  | sub
  | mul
  | div
  deriving DecidableEq, Repr

/-- The i32 arithmetic operations (division truncates toward zero as in
Rust; division by zero, which panics in Rust, is outside the verified
claims and modeled as 0 via Int.tdiv). -/
def i32op : MathKind → Int → Int → Int
  | .add, a, b => wrap32 (a + b)
  | .sub, a, b => wrap32 (a - b)
  | .mul, a, b => wrap32 (a * b)
  | .div, a, b => wrap32 (Int.tdiv a b)

/-- The f64 arithmetic operations on the rational model. -/
def f64op : MathKind → Rat → Rat → Rat
  | .add, a, b => a + b
  | .sub, a, b => a - b
  | .mul, a, b => a * b
  | .div, a, b => a / b

/-- Elementwise application with arrow null semantics: the result is null
wherever either input is null. -/
def zipOpt (f : α → α → β) : List (Option α) → List (Option α) → List (Option β)
  | x :: xs, y :: ys => (do pure (f (← x) (← y))) :: zipOpt f xs ys
  | _, _ => []

/-- Modelled from the spec: arrow2 elementwise arithmetic kernel on two
arrays of equal length (compute::arithmetics::add and friends); arrow2
panics on mismatched data types, a case no verified claim reaches, modeled
by an all-null result of the left type. -/
def mathKernel (k : MathKind) : ArrayValue → ArrayValue → ArrayValue
  | .int32 xs, .int32 ys => .int32 (zipOpt (i32op k) xs ys)
  | .float64 xs, .float64 ys => .float64 (zipOpt (f64op k) xs ys)
  | .int32 xs, _ => .int32 (xs.map fun _ => none)
  | .float64 xs, _ => .float64 (xs.map fun _ => none)
  | a, _ => a

/-- Modelled from the spec: arrow2 broadcast arithmetic kernel
(compute::arithmetics::add_scalar and friends); the array is the left
operand and the scalar the right one, elementwise array-op-scalar. -/
def mathScalarKernel (k : MathKind) : ArrayValue → ScalarValue → ArrayValue
  | .int32 xs, .int32 (some s) => .int32 (xs.map (Option.map fun x => i32op k x s))
  | .int32 xs, _ => .int32 (xs.map fun _ => none)
  | .float64 xs, .float64 (some s) => .float64 (xs.map (Option.map fun x => f64op k x s))
  | .float64 xs, _ => .float64 (xs.map fun _ => none)
  | a, _ => a

inductive CmpKind where
  | eq
  | neq
  deriving DecidableEq, Repr

def cmpOp (k : CmpKind) [DecidableEq α] (x y : α) : Bool :=
  match k with
  | .eq => decide (x = y)
  | .neq => decide (x ≠ y)

/-- Modelled from the spec: arrow2 elementwise comparison kernel on two
arrays of equal length (compute::comparison::eq / neq), returning a
Boolean array that is null where either input is null. -/
def cmpKernel (k : CmpKind) : ArrayValue → ArrayValue → ArrayValue
  | .int32 xs, .int32 ys => .boolean (zipOpt (cmpOp k) xs ys)
  | .float64 xs, .float64 ys => .boolean (zipOpt (cmpOp k) xs ys)
  | .utf8 xs, .utf8 ys => .boolean (zipOpt (cmpOp k) xs ys)
  | .boolean xs, .boolean ys => .boolean (zipOpt (cmpOp k) xs ys)
  | a, _ => .boolean (List.replicate a.len none)

/-- Modelled from the spec: arrow2 broadcast comparison kernel
(compute::comparison::eq_scalar / neq_scalar). -/
def cmpScalarKernel (k : CmpKind) : ArrayValue → ScalarValue → ArrayValue
  | .int32 xs, .int32 (some s) => .boolean (xs.map (Option.map fun x => cmpOp k x s))
  | .float64 xs, .float64 (some s) => .boolean (xs.map (Option.map fun x => cmpOp k x s))
  | .utf8 xs, .utf8 (some s) => .boolean (xs.map (Option.map fun x => cmpOp k x s))
  | .boolean xs, .boolean (some s) => .boolean (xs.map (Option.map fun x => cmpOp k x s))
  | a, _ => .boolean (List.replicate a.len none)

/-- PartialEq on two dyn Scalars: equal when type and value agree
(differently typed scalars compare unequal). -/
def scalarCmp (k : CmpKind) (l r : ScalarValue) : Bool := cmpOp k l r

/- ## scalar_to_array (columnar_value.rs) -/

/-- scalar_to_array (query-engine/src/columnar_value.rs): broadcast a
scalar with a present value into a length-len constant array; supports
Int32, Float64, Utf8 and Bool, everything else is ScalarToArrayError.
(The superseded src/columnar_value.rs variant lacking the Boolean arm is
scalar_to_array_old below.) -/
def scalar_to_array (s : ScalarValue) (len : Nat) : Except Error ArrayValue :=
  match s with
  | .int32 (some v) => .ok (.int32 (List.replicate len (some v)))
  | .float64 (some v) => .ok (.float64 (List.replicate len (some v)))
  | .utf8 (some v) => .ok (.utf8 (List.replicate len (some v)))
  | .boolean (some v) => .ok (.boolean (List.replicate len (some v)))
  | s => .error (.ScalarToArrayError s.dataType.debugStr)

/-- scalar_to_array (src/columnar_value.rs, the older variant): same as
scalar_to_array but without the Boolean arm, so Bool scalars fall to the
catch-all ScalarToArrayError. -/
def scalar_to_array_old (s : ScalarValue) (len : Nat) : Except Error ArrayValue :=
  match s with
  | .int32 (some v) => .ok (.int32 (List.replicate len (some v)))
  | .float64 (some v) => .ok (.float64 (List.replicate len (some v)))
  | .utf8 (some v) => .ok (.utf8 (List.replicate len (some v)))
  | s => .error (.ScalarToArrayError s.dataType.debugStr)

/-- ColumnarValue::to_array (query-engine/src/columnar_value.rs): an array
is returned as is, a scalar is inflated by scalar_to_array with unwrap
(panic on inflation failure). -/
def ColumnarValue.to_array (cv : ColumnarValue) (len : Nat) : RunResult ArrayValue :=
  match cv with
  | .array a => .ok a
  | .scalar s =>
    match scalar_to_array s len with
    | .ok a => .ok a
    | .error _ => .panicked unwrapErrMsg

/- ## Physical expressions (physical_plan/physical_expressions.rs) -/

inductive AggKind where
  | max
  | min
  deriving DecidableEq, Repr

/-- Physical expressions: Column carries an ordinal index; the comparison
and math families are generated by one macro each in the source
(comparisonExpression with Eq/Neq, mathExpression with Add/Sub/Mul/Div),
embedded as kind-indexed constructors; agg covers MaxExpression and
MinExpression. -/
inductive PhysExpr where
  | column (index : Nat)
  | litBool (v : Bool)
  | litString (v : String)
  | litInt (v : Int)
  | litFloat (v : Rat)
  | cmp (k : CmpKind) (l r : PhysExpr)
  | math (k : MathKind) (l r : PhysExpr)
  | agg (k : AggKind) (e : PhysExpr)
  deriving DecidableEq, Repr

/-- PhysicalExpression::evaluate, transcribed case by case from
physical_plan/physical_expressions.rs. -/
def PhysExpr.evaluate : PhysExpr → Batch → Except Error ColumnarValue
  | .column index, input =>
    -- input.get(index) then downcast by physical type; every failure path
    -- falls to the single ok_or(PrimitiveTypeNotSuported("Int32"))
    match input.get? index with
    | none => .error (.PrimitiveTypeNotSuported "Int32")
    | some a =>
      match a with
      | .timestamp _ => .error (.PrimitiveTypeNotSuported "Int32")
      | a => .ok (.array a)
  | .litBool v, _ => .ok (.scalar (.boolean (some v)))
  | .litString v, _ => .ok (.scalar (.utf8 (some v)))
  | .litInt v, _ => .ok (.scalar (.int32 (some v)))
  | .litFloat v, _ => .ok (.scalar (.float64 (some v)))
  | .cmp k l r, input => do
    let lv ← l.evaluate input
    let rv ← r.evaluate input
    match lv, rv with
    | .array la, .array ra =>
      if la.len = ra.len then
        .ok (.array (cmpKernel k la ra))
      else
        .error (.DifferentSizes la.debugStr ra.debugStr)
    | .array la, .scalar rs => .ok (.array (cmpScalarKernel k la rs))
    | .scalar ls, .array ra => .ok (.array (cmpScalarKernel k ra ls))
    | .scalar ls, .scalar rs => .ok (.scalar (.boolean (some (scalarCmp k ls rs))))
  | .math k l r, input => do
    let lv ← l.evaluate input
    let rv ← r.evaluate input
    match lv, rv with
    | .array la, .array ra =>
      if la.len = ra.len then
        .ok (.array (mathKernel k la ra))
      else
        .error (.DifferentSizes la.debugStr ra.debugStr)
    | .array la, .scalar rs => .ok (.array (mathScalarKernel k la rs))
    | .scalar ls, .array ra => .ok (.array (mathScalarKernel k ra ls))
    | .scalar ls, .scalar rs =>
      match ls, rs with
      | .float64 lv, .float64 rv =>
        .ok (.scalar (.float64 (match lv, rv with
          | some lv, some rv => some (f64op k lv rv)
          | _, _ => none)))
      | .int32 lv, .int32 rv =>
        .ok (.scalar (.int32 (match lv, rv with
          | some lv, some rv => some (i32op k lv rv)
          | _, _ => none)))
      | ls, _ => .error (.PrimitiveTypeNotSuported ls.dataType.debugStr)
  | .agg _ e, input => e.evaluate input

/- ## Accumulators (aggregateExpression macro, MaxAccumulator / MinAccumulator) -/

/-- Accumulator state: the running Scalar value (a NullScalar when fresh)
and the index of the aggregate expression's column in the agg input. -/
structure AccState where
  value : ScalarValue
  index : Nat
  deriving DecidableEq, Repr

/-- create_accumulator: value starts as NullScalar::new(). -/
def freshAccumulator (index : Nat) : AccState := ⟨.null, index⟩

/-- Apply a validity bitmap to an array: combined validity is the bitwise
AND of the array's own validity and the bitmap (dyn Array::with_validity of
the bitand in the source). -/
def maskArray (a : ArrayValue) (validity : Option (List Bool)) : ArrayValue :=
  match validity with
  | none => a
  | some bs =>
    match a with
    | .int32 xs => .int32 (List.zipWith (fun x b => if b then x else none) xs bs)
    | .float64 xs => .float64 (List.zipWith (fun x b => if b then x else none) xs bs)
    | .utf8 xs => .utf8 (List.zipWith (fun x b => if b then x else none) xs bs)
    | .boolean xs => .boolean (List.zipWith (fun x b => if b then x else none) xs bs)
    | .timestamp xs => .timestamp (List.zipWith (fun x b => if b then x else none) xs bs)

/-- Fold the maximum of the valid elements of a list. -/
def listMaxValid [LinearOrder α] (xs : List (Option α)) : Option α :=
  xs.foldl
    (fun acc x =>
      match acc, x with
      | none, x => x
      | some a, none => some a
      | some a, some x => some (max a x))
    none

/-- Fold the minimum of the valid elements of a list. -/
def listMinValid [LinearOrder α] (xs : List (Option α)) : Option α :=
  xs.foldl
    (fun acc x =>
      match acc, x with
      | none, x => x
      | some a, none => some a
      | some a, some x => some (min a x))
    none

/-- Modelled from the spec: the arrow2 aggregate scalar kernel
(compute::aggregate::max / min over a dyn Array), restricted to the
numeric types the verified claims exercise; other array types surface an
arrow error exactly as the source maps kernel errors to Error::ArrowError. -/
def aggScalarKernel (k : AggKind) (a : ArrayValue) : Except Error ScalarValue :=
  match k, a with
  | .max, .int32 xs => .ok (.int32 (listMaxValid xs))
  | .min, .int32 xs => .ok (.int32 (listMinValid xs))
  | .max, .float64 xs => .ok (.float64 (listMaxValid xs))
  | .min, .float64 xs => .ok (.float64 (listMinValid xs))
  | _, a => .error (.ArrowError ("InvalidArgumentError " ++ a.dataType.debugStr))

/-- The comparison the accumulator uses to decide whether to replace its
state: gt for MaxAccumulator, lt for MinAccumulator. -/
def accReplaceCmp (k : AggKind) [LinearOrder α] (new old : α) : Bool :=
  match k with
  | .max => decide (old < new)
  | .min => decide (new < old)

/-- Accumulator::accumulate for the macro-generated Max/Min accumulators:
compute the masked aggregate of the input column at the accumulator's own
index, then compare the new scalar with the current state; the comparison
match only covers (Float64, Float64) and (Int32, Int32), every other type
pair (including the fresh Null state) is an error. -/
def AccState.accumulate (k : AggKind) (st : AccState) (input : List ColumnarValue)
    (validity : Option (List Bool)) : Outcome AccState :=
  match input.get? st.index with
  | none => .panicked "index out of bounds"
  | some cv =>
    let newRes : Except Error ScalarValue :=
      match cv with
      | .array a => aggScalarKernel k (maskArray a validity)
      | .scalar s =>
        match s with
        | .float64 v => .ok (.float64 v)
        | .int32 v => .ok (.int32 v)
        | s => .error (.PhysicalTypeNotSuported s.dataType.toPhysicalType.debugStr)
    match newRes with
    | .error e => .err e
    | .ok new =>
      let cmpRes : Except Error Bool :=
        match new, st.value with
        | .float64 nv, .float64 ov =>
          match nv, ov with
          | some nv, some ov => .ok (accReplaceCmp k nv ov)
          | _, _ => .error .DowncastError
        | .int32 nv, .int32 ov =>
          match nv, ov with
          | some nv, some ov => .ok (accReplaceCmp k nv ov)
          | _, _ => .error .DowncastError
        | new, _ => .error (.PrimitiveTypeNotSuported new.dataType.debugStr)
      match cmpRes with
      | .error e => .err e
      | .ok b => .ok (if b then { st with value := new } else st)

/-- Accumulator::final_value: the state as a Scalar columnar value. -/
def AccState.final_value (st : AccState) : Except Error ColumnarValue :=
  .ok (.scalar st.value)

/- ## AggregateExec::execute (physical_plan/mod.rs) -/

/-- One cell of an array, as a typed scalar (used to model group hashing). -/
def ArrayValue.cellAt : ArrayValue → Nat → ScalarValue
  | .int32 xs, i => .int32 ((xs.get? i).getD none)
  | .float64 xs, i => .float64 ((xs.get? i).getD none)
  | .utf8 xs, i => .utf8 ((xs.get? i).getD none)
  | .boolean xs, i => .boolean ((xs.get? i).getD none)
  | .timestamp xs, i => .timestamp ((xs.get? i).getD none)

/-- Array::slice(i, 1): the one-row slice at row i. -/
def ArrayValue.slice1 : ArrayValue → Nat → ArrayValue
  | .int32 xs, i => .int32 [(xs.get? i).getD none]
  | .float64 xs, i => .float64 [(xs.get? i).getD none]
  | .utf8 xs, i => .utf8 [(xs.get? i).getD none]
  | .boolean xs, i => .boolean [(xs.get? i).getD none]
  | .timestamp xs, i => .timestamp [(xs.get? i).getD none]

/-- Modelled from the spec: the per-row group hash (spec section 4.6, the
sum of the per-column arrow2 hashes). It is modeled collision-free as the
tuple of group-key cells of the row; the source accepts the residual u64
collision probability (policy (b) of the spec). -/
def rowKey (groupKeys : List ArrayValue) (i : Nat) : List ScalarValue :=
  groupKeys.map (fun col => col.cellAt i)

abbrev AggKey := List ScalarValue

/-- One hash-map entry: the accumulators (with their kinds) and the
one-row slices of the group-key columns that introduced the group. -/
structure AggEntry where
  accs : List (AggKind × AccState)
  groupRow : List ArrayValue
  deriving DecidableEq, Repr

/-- The aggregation hash map, modeled as an association list in insertion
order (the source iterates a HashMap whose order is unspecified). -/
abbrev AggMap := List (AggKey × AggEntry)

def lookupEntry (hm : AggMap) (key : AggKey) : Option AggEntry :=
  (hm.find? (fun p => p.1 == key)).map (·.2)

def updateEntry (hm : AggMap) (key : AggKey) (e : AggEntry) : AggMap :=
  hm.map (fun p => if p.1 == key then (p.1, e) else p)

/-- The group_keys computation: map each group expression through evaluate
then ColumnarValue::to_array (whose scalar inflation unwraps, hence may
panic); collect short-circuits at the first evaluation error, and
unwrap_or replaces an error by the empty column list. -/
def computeGroupKeysE : List PhysExpr → Batch → Nat →
    RunResult (Except Error (List ArrayValue))
  | [], _, _ => .ok (.ok [])
  | e :: es, b, len =>
    match e.evaluate b with
    | .error err => .ok (.error err)
    | .ok cv =>
      (cv.to_array len).bind fun a =>
        (computeGroupKeysE es b len).map fun r => r.map (a :: ·)

def computeGroupKeys (gs : List PhysExpr) (b : Batch) (len : Nat) :
    RunResult (List ArrayValue) :=
  (computeGroupKeysE gs b len).map fun r => r.toOption.getD []

/-- agg_input: evaluate every aggregate expression against the batch;
unwrap_or replaces the first error by the empty list. -/
def computeAggInput (aggExprs : List (AggKind × PhysExpr)) (b : Batch) :
    List ColumnarValue :=
  ((aggExprs.mapM (fun (p : AggKind × PhysExpr) => p.2.evaluate b)).toOption).getD []

/-- Run accumulate on every accumulator of an entry; each call is
unwrapped in the source, so a returned Err becomes a panic. -/
def accumulateAll (input : List ColumnarValue) (validity : List Bool) :
    List (AggKind × AccState) → RunResult (List (AggKind × AccState))
  | [] => .ok []
  | (k, st) :: rest =>
    match st.accumulate k input (some validity) with
    | .err _ => .panicked unwrapErrMsg
    | .panicked m => .panicked m
    | .ok st' => (accumulateAll input validity rest).map ((k, st') :: ·)

/-- Per-batch loop state: the hashes seen in this batch and the hash map. -/
structure BatchState where
  seen : List AggKey
  hm : AggMap
  deriving DecidableEq, Repr

/-- The body of the per-row loop of AggregateExec::execute. -/
def stepRow (aggExprs : List (AggKind × PhysExpr)) (groupKeys : List ArrayValue)
    (aggInput : List ColumnarValue) (length : Nat) (st : BatchState) (i : Nat) :
    RunResult BatchState :=
  let key := rowKey groupKeys i
  if st.seen.contains key then
    .ok st
  else
    let validity := (List.range length).map (fun j => rowKey groupKeys j == key)
    let hm1 :=
      if (lookupEntry st.hm key).isSome then st.hm
      else
        st.hm ++ [(key,
          { accs := aggExprs.enum.map
              (fun (p : Nat × (AggKind × PhysExpr)) => (p.2.1, freshAccumulator p.1)),
            groupRow := groupKeys.map (fun col => col.slice1 i) })]
    match lookupEntry hm1 key with
    | none => .ok { seen := key :: st.seen, hm := hm1 }
    | some entry =>
      (accumulateAll aggInput validity entry.accs).map fun accs' =>
        { seen := key :: st.seen,
          hm := updateEntry hm1 key { entry with accs := accs' } }

/-- Process one Ok batch of the child stream. -/
def processBatch (groupExprs : List PhysExpr) (aggExprs : List (AggKind × PhysExpr))
    (hm : AggMap) (batch : Batch) : RunResult AggMap := do
  let length := batchLen batch
  let groupKeys ← computeGroupKeys groupExprs batch length
  let aggInput := computeAggInput aggExprs batch
  let st ← (List.range length).foldlM (stepRow aggExprs groupKeys aggInput length)
    { seen := [], hm := hm }
  pure st.hm

/-- The input drain of AggregateExec::execute: Ok batches are processed,
erroneous items are silently skipped (the Err arm of the source is a
no-op). -/
def aggLoop (groupExprs : List PhysExpr) (aggExprs : List (AggKind × PhysExpr)) :
    AggMap → List (Except Error Batch) → RunResult AggMap
  | hm, [] => .ok hm
  | hm, .error _ :: rest => aggLoop groupExprs aggExprs hm rest
  | hm, .ok b :: rest =>
    (processBatch groupExprs aggExprs hm b).bind fun hm' =>
      aggLoop groupExprs aggExprs hm' rest

/-- groups extended by final_value().unwrap().to_array(1) for every
accumulator of the entry. -/
def entryRow (e : AggEntry) : RunResult (List ArrayValue) :=
  (e.accs.mapM (fun p => ColumnarValue.to_array (.scalar p.2.value) 1)).map
    (e.groupRow ++ ·)

/-- A mutable output column under construction (MutablePrimitiveArray,
MutableUtf8Array, MutableBooleanArray); extending a primitive column via
extend_from_slice copies the raw value buffer, dropping validity (a null
slot contributes its buffer content, modeled as 0). -/
inductive MutCol where
  | int32 (vals : List Int)
  | float64 (vals : List Rat)
  | utf8 (vals : List (Option String))
  | boolean (vals : List (Option Bool))
  deriving DecidableEq, Repr

/-- Initialize one output column from the first group row; column types
outside the four supported ones are PhysicalTypeNotSuported. -/
def initCol : ArrayValue → Except Error MutCol
  | .int32 xs => .ok (.int32 (xs.map (·.getD 0)))
  | .float64 xs => .ok (.float64 (xs.map (·.getD 0)))
  | .utf8 xs => .ok (.utf8 xs)
  | .boolean xs => .ok (.boolean xs)
  | a => .error (.PhysicalTypeNotSuported a.physicalType.debugStr)

/-- The collect().unwrap() around the column initialization: an error
becomes a panic. -/
def initCols (row : List ArrayValue) : RunResult (List MutCol) :=
  match row.mapM initCol with
  | .ok cols => .ok cols
  | .error _ => .panicked unwrapErrMsg

/-- Extend one output column by the next group's array; the downcasts
unwrap, so a type mismatch panics. -/
def extendCol (c : MutCol) (a : ArrayValue) : RunResult MutCol :=
  match c, a with
  | .int32 vs, .int32 xs => .ok (.int32 (vs ++ xs.map (·.getD 0)))
  | .float64 vs, .float64 xs => .ok (.float64 (vs ++ xs.map (·.getD 0)))
  | .utf8 vs, .utf8 xs => .ok (.utf8 (vs ++ xs))
  | .boolean vs, .boolean xs => .ok (.boolean (vs ++ xs))
  | _, _ => .panicked unwrapNoneMsg

/-- zip of the group row with the mutable columns (unpaired columns stay
unchanged, exactly like zip over iter_mut). -/
def extendRow : List MutCol → List ArrayValue → RunResult (List MutCol)
  | cols, [] => .ok cols
  | [], _ => .ok []
  | c :: cs, a :: rest =>
    (extendCol c a).bind fun c' => (extendRow cs rest).map (c' :: ·)

/-- MutableArray::as_arc: primitives come out fully valid. -/
def MutCol.toArrayValue : MutCol → ArrayValue
  | .int32 vs => .int32 (vs.map some)
  | .float64 vs => .float64 (vs.map some)
  | .utf8 vs => .utf8 vs
  | .boolean vs => .boolean vs

/-- The finalization of AggregateExec::execute: the first entry seeds the
mutable columns (iter.next().unwrap() panics on an empty hash map), the
remaining entries are stacked below it. -/
def finalizeGroups (entries : List AggEntry) : RunResult Batch :=
  match entries with
  | [] => .panicked unwrapNoneMsg
  | e0 :: rest => do
    let row0 ← entryRow e0
    let cols0 ← initCols row0
    let cols ← rest.foldlM (fun cols e => (entryRow e).bind (extendRow cols)) cols0
    pure (cols.map MutCol.toArrayValue)

/-- AggregateExec::execute: drain the child stream into the hash map, then
finalize into the single output batch. -/
def aggExecute (groupExprs : List PhysExpr) (aggExprs : List (AggKind × PhysExpr))
    (stream : List (Except Error Batch)) : RunResult Batch :=
  (aggLoop groupExprs aggExprs [] stream).bind fun hm =>
    finalizeGroups (hm.map (·.2))

/- ## Schema and data source -/

/-- A named, typed, nullable field (arrow2 Field). -/
structure Field where
  name : String
  dtype : DataTy
  nullable : Bool
  deriving DecidableEq, Repr

/-- An ordered sequence of fields. -/
abbrev Schema := List Field

instance [DecidableEq ε] [DecidableEq α] : DecidableEq (Except ε α) := fun a b =>
  match a, b with
  | .ok x, .ok y =>
    if h : x = y then .isTrue (by rw [h]) else .isFalse (by simp [h])
  | .error x, .error y =>
    if h : x = y then .isTrue (by rw [h]) else .isFalse (by simp [h])
  | .ok _, .error _ => .isFalse (by simp)
  | .error _, .ok _ => .isFalse (by simp)

/-- Modelled from the spec: the parquet data source (external collaborator,
spec section 6): an inferred schema and the file's batches in file order;
a batch item may be a reader error (carried as its message string). -/
structure DataSource where
  fields : Schema
  batches : List (Except String Batch)
  deriving DecidableEq

/-- Modelled from the spec: DataSource::scan with an advisory projection —
the reader emits, per batch, the subset of columns whose field name is in
the projection, in file order. -/
def DataSource.scan (ds : DataSource) (projection : Option (Finset String)) :
    List (Except String Batch) :=
  match projection with
  | none => ds.batches
  | some proj =>
    ds.batches.map (Except.map (fun b =>
      ((ds.fields.zip b).filter (fun p => p.1.name ∈ proj)).map (·.2)))

/- ## Logical expressions (logical_plan/logical_expression.rs) -/

/-- The booleanBinaryExpression macro instances (comparisons and And/Or). -/
inductive LBoolKind where
  | eq
  | neq
  | gt
  | gteq
  | lt
  | lteq
  | and
  | or
  deriving DecidableEq, Repr

/-- The mathExpression macro instances. -/
inductive LMathKind where
  | add
  | sub
  | mul
  | div
  | mod
  deriving DecidableEq, Repr

/-- The aggregateExpression macro instances plus Count. -/
inductive LAggKind where
  | sum
  | avg
  | max
  | min
  | count
  deriving DecidableEq, Repr

/-- Logical expressions: Column by name, four literal kinds, the
boolean-producing binary family, the arithmetic binary family, and the
unary aggregate family (each family is one macro in the source). -/
inductive LogicalExpr where
  | column (name : String)
  | litBool (v : Bool)
  | litString (v : String)
  | litInt (v : Int)
  | litFloat (v : Rat)
  | bbin (k : LBoolKind) (l r : LogicalExpr)
  | mbin (k : LMathKind) (l r : LogicalExpr)
  | agg (k : LAggKind) (e : LogicalExpr)
  deriving DecidableEq, Repr

/-- The field name of a boolean binary expression. -/
def LBoolKind.fieldName : LBoolKind → String
  | .eq => "eq"
  | .neq => "neq"
  | .gt => "gt"
  | .gteq => "gteq"
  | .lt => "lt"
  | .lteq => "lteq"
  | .and => "and"
  | .or => "or"

/-- The operator symbol of a boolean binary expression (Display). -/
def LBoolKind.opSym : LBoolKind → String
  | .eq => "=="
  | .neq => "!="
  | .gt => ">"
  | .gteq => ">="
  | .lt => "<"
  | .lteq => "<="
  | .and => "&&"
  | .or => "||"

def LMathKind.fieldName : LMathKind → String
  | .add => "add"
  | .sub => "sub"
  | .mul => "mul"
  | .div => "div"
  | .mod => "mod"

def LMathKind.opSym : LMathKind → String
  | .add => "+"
  | .sub => "-"
  | .mul => "*"
  | .div => "/"
  | .mod => "%"

def LAggKind.fieldName : LAggKind → String
  | .sum => "sum"
  | .avg => "avg"
  | .max => "max"
  | .min => "min"
  | .count => "count"

/-- The Display implementation of logical expressions (literal float
rendering abstracts the f64 formatter through the rational model). -/
def LogicalExpr.display : LogicalExpr → String
  | .column n => "#" ++ n
  | .litBool v => "'" ++ toString v ++ "'"
  | .litString v => "'" ++ v ++ "'"
  | .litInt v => "'" ++ toString v ++ "'"
  | .litFloat v => "'" ++ toString v ++ "'"
  | .bbin k l r => l.display ++ " " ++ k.opSym ++ " " ++ r.display
  | .mbin k l r => l.display ++ " " ++ k.opSym ++ " " ++ r.display
  | .agg k e => k.fieldName ++ " (" ++ e.display ++ ")"

/-- LogicalExpression::to_field against a child schema (the child plan's
schema is passed in already computed; the source recomputes it through the
child plan, a pure function, at each Column leaf). Literals ignore the
child schema entirely, exactly as in the source. -/
def toFieldS (cs : Except Error Schema) : LogicalExpr → Except Error Field
  | .column n =>
    cs.bind fun s =>
      match s.find? (fun f => f.name == n) with
      | some f => .ok f
      | none => .error (.NoFieldInLogicalPlan n)
  | .litBool v => .ok ⟨toString v, .boolean, false⟩
  | .litString v => .ok ⟨v, .utf8, false⟩
  | .litInt v => .ok ⟨toString v, .int32, false⟩
  | .litFloat v => .ok ⟨toString v, .float64, false⟩
  | .bbin k _ _ => .ok ⟨k.fieldName, .boolean, false⟩
  | .mbin k l _ => (toFieldS cs l).map fun f => ⟨k.fieldName, f.dtype, false⟩
  | .agg k e => (toFieldS cs e).map fun f => ⟨k.fieldName, f.dtype, false⟩

/- ## Logical plans (logical_plan/mod.rs) -/

/-- Logical plans: Scan (path, data source, optional projection),
Projection, Selection, Aggregate. The cached schema field of the source
structs is fully derivable (spec section 3 invariant) and is represented
by the schema function below; the projection, stored as a Vec built from a
HashSet and only ever queried through contains, is modeled as the finite
set of names (the spec leaves the order unspecified). -/
inductive LogicalPlan where
  | scan (path : String) (source : DataSource) (projection : Option (Finset String))
  | projection (child : LogicalPlan) (exprs : List LogicalExpr)
  | selection (child : LogicalPlan) (expr : LogicalExpr)
  | aggregate (child : LogicalPlan) (groupExprs aggExprs : List LogicalExpr)
  deriving DecidableEq

/-- Scan::derive_schema: the data-source fields filtered, in data-source
order, by projection membership; no projection keeps the full schema. -/
def scanSchema (source : DataSource) (projection : Option (Finset String)) : Schema :=
  match projection with
  | some proj => source.fields.filter (fun f => f.name ∈ proj)
  | none => source.fields

/-- Derive the fields of an expression list against a child schema. -/
def listFields (cs : Except Error Schema) (es : List LogicalExpr) :
    Except Error Schema :=
  es.mapM (toFieldS cs)

/-- LogicalPlan::schema, combining the derive_schema functions of the four
node structs (the source caches this at construction). -/
def LogicalPlan.schema : LogicalPlan → Except Error Schema
  | .scan _ src proj => .ok (scanSchema src proj)
  | .projection child exprs => listFields child.schema exprs
  | .selection child expr => (toFieldS child.schema expr).map ([·])
  | .aggregate child groupExprs aggExprs =>
    listFields child.schema (groupExprs ++ aggExprs)

/-- LogicalExpression::to_field. -/
def LogicalExpr.to_field (e : LogicalExpr) (input : LogicalPlan) :
    Except Error Field :=
  toFieldS input.schema e

/- ## Projection pushdown (logical_plan/optimizer.rs) -/

/-- extract_columns: collect the Column leaves of an expression into the
traveling set (the unused plan parameter of the source is dropped). -/
def extractColumns : LogicalExpr → Finset String → Finset String
  | .column n, s => insert n s
  | .litBool _, s => s
  | .litString _, s => s
  | .litInt _, s => s
  | .litFloat _, s => s
  | .bbin _ l r, s => extractColumns r (extractColumns l s)
  | .mbin _ l r, s => extractColumns r (extractColumns l s)
  | .agg _ e, s => extractColumns e s

/-- extract_all_columns: fold extract_columns over an expression list. -/
def extractAllColumns (es : List LogicalExpr) (s : Finset String) : Finset String :=
  es.foldl (fun s e => extractColumns e s) s

/-- LogicalPlan::push_down with the traveling set of referenced names: a
non-Scan node adds its own columns before recursing; the Scan folds its
original projection (if any) into the set and stores the result. -/
def LogicalPlan.push_down : LogicalPlan → Finset String → LogicalPlan
  | .scan path src proj, s =>
    .scan path src (some (match proj with
      | some projs => projs ∪ s
      | none => s))
  | .aggregate child groupExprs aggExprs, s =>
    .aggregate (child.push_down (extractAllColumns aggExprs (extractAllColumns groupExprs s)))
      groupExprs aggExprs
  | .projection child exprs, s =>
    .projection (child.push_down (extractAllColumns exprs s)) exprs
  | .selection child expr, s =>
    .selection (child.push_down (extractColumns expr s)) expr

/-- LogicalPlan::optimize = projection_push_down with an empty set. -/
def LogicalPlan.optimize (p : LogicalPlan) : LogicalPlan :=
  p.push_down ∅

/- ## Physical planner (query_planner.rs) -/

/-- Physical plans (the cached schema fields, unused by execution, are
derivable and omitted; an aggregate expression is its kind with the
lowered argument). -/
inductive PhysicalPlan where
  | scan (source : DataSource) (projection : Option (Finset String))
  | projection (child : PhysicalPlan) (exprs : List PhysExpr)
  | selection (child : PhysicalPlan) (expr : PhysExpr)
  | aggregate (child : PhysicalPlan) (groupExprs : List PhysExpr)
      (aggExprs : List (AggKind × PhysExpr))
  deriving DecidableEq

/-- LogicalExpression::to_physical_expression: Column resolves to its
ordinal position in the child schema; Eq, Neq, Add, Sub, Mul, Div, Max and
Min lower recursively; every other variant is PhysicalExpressionNotSuported. -/
def LogicalExpr.to_physical_expression (e : LogicalExpr) (input : LogicalPlan) :
    Except Error PhysExpr :=
  match e with
  | .column n =>
    input.schema.bind fun s =>
      match s.findIdx? (fun f => f.name == n) with
      | some index => .ok (.column index)
      | none => .error (.NoFieldInLogicalPlan ("#" ++ n))
  | .litBool v => .ok (.litBool v)
  | .litString v => .ok (.litString v)
  | .litInt v => .ok (.litInt v)
  | .litFloat v => .ok (.litFloat v)
  | .bbin .eq l r => do
    let left ← l.to_physical_expression input
    let right ← r.to_physical_expression input
    .ok (.cmp .eq left right)
  | .bbin .neq l r => do
    let left ← l.to_physical_expression input
    let right ← r.to_physical_expression input
    .ok (.cmp .neq left right)
  | .mbin .add l r => do
    let left ← l.to_physical_expression input
    let right ← r.to_physical_expression input
    .ok (.math .add left right)
  | .mbin .sub l r => do
    let left ← l.to_physical_expression input
    let right ← r.to_physical_expression input
    .ok (.math .sub left right)
  | .mbin .mul l r => do
    let left ← l.to_physical_expression input
    let right ← r.to_physical_expression input
    .ok (.math .mul left right)
  | .mbin .div l r => do
    let left ← l.to_physical_expression input
    let right ← r.to_physical_expression input
    .ok (.math .div left right)
  | .agg .max e => (e.to_physical_expression input).map (.agg .max)
  | .agg .min e => (e.to_physical_expression input).map (.agg .min)
  | e => .error (.PhysicalExpressionNotSuported e.display)

/-- LogicalExpression::to_physical_aggregate_expression: only Max and Min
are accepted. -/
def LogicalExpr.to_physical_aggregate_expression (e : LogicalExpr)
    (input : LogicalPlan) : Except Error (AggKind × PhysExpr) :=
  match e with
  | .agg .max e => (e.to_physical_expression input).map ((AggKind.max, ·))
  | .agg .min e => (e.to_physical_expression input).map ((AggKind.min, ·))
  | e => .error (.PhysicalExpressionNotSuported e.display)

/-- LogicalPlan::to_physical_plan: expressions are lowered against the
child plan before the child itself is lowered, as in the source. -/
def LogicalPlan.to_physical_plan : LogicalPlan → Except Error PhysicalPlan
  | .scan _ src proj => .ok (.scan src proj)
  | .projection child exprs => do
    let pexprs ← exprs.mapM (fun e => e.to_physical_expression child)
    let pchild ← child.to_physical_plan
    .ok (.projection pchild pexprs)
  | .selection child expr => do
    let pexpr ← expr.to_physical_expression child
    let pchild ← child.to_physical_plan
    .ok (.selection pchild pexpr)
  | .aggregate child groupExprs aggExprs => do
    let pg ← groupExprs.mapM (fun e => e.to_physical_expression child)
    let pa ← aggExprs.mapM (fun e => e.to_physical_aggregate_expression child)
    let pchild ← child.to_physical_plan
    .ok (.aggregate pchild pg pa)

/- ## The operator pipeline (physical_plan/mod.rs) -/

/-- ScanIterator: the data source's stream with reader errors lifted into
Error::ArrowError. -/
def scanStream (ds : DataSource) (projection : Option (Finset String)) :
    List (Except Error Batch) :=
  (ds.scan projection).map fun r =>
    match r with
    | .ok b => .ok b
    | .error s => .error (.ArrowError s)

/-- The per-batch body of ProjectionIterator::next: evaluate every
expression, inflating a Scalar result to the batch length. -/
def projectBatch (exprs : List PhysExpr) (chunk : Batch) : Except Error Batch :=
  exprs.mapM fun e =>
    (e.evaluate chunk).bind fun col =>
      match col with
      | .array a => .ok a
      | .scalar s => scalar_to_array s (batchLen chunk)

/-- ProjectionIterator: items are mapped one at a time; an Err item passes
through and_then unchanged. -/
def projectionStream (exprs : List PhysExpr) (stream : List (Except Error Batch)) :
    List (Except Error Batch) :=
  stream.map fun res => res.bind (projectBatch exprs)

/-- Keep the rows whose mask entry is valid and true. -/
def filterList (mask : List (Option Bool)) (xs : List α) : List α :=
  ((xs.zip mask).filter (fun p => p.2 == some true)).map (·.1)

/-- Apply the boolean mask to one column. -/
def filterArray (mask : List (Option Bool)) : ArrayValue → ArrayValue
  | .int32 xs => .int32 (filterList mask xs)
  | .float64 xs => .float64 (filterList mask xs)
  | .utf8 xs => .utf8 (filterList mask xs)
  | .boolean xs => .boolean (filterList mask xs)
  | .timestamp xs => .timestamp (filterList mask xs)

/-- Modelled from the spec: arrow2 compute::filter::filter_chunk — every
column filtered by the boolean mask; a length mismatch is an arrow error
(lifted by the source into Error::ArrowError). -/
def filterChunk (chunk : Batch) (mask : List (Option Bool)) : Except Error Batch :=
  if chunk.all (fun a => a.len = mask.length) then
    .ok (chunk.map (filterArray mask))
  else
    .error (.ArrowError "length of filter is different from length of array")

/-- The per-batch body of SelectionIterator::next: evaluate the predicate,
inflate a Scalar, require a Boolean array, filter the chunk by it. -/
def selectBatch (expr : PhysExpr) (chunk : Batch) : Except Error Batch := do
  let bitvector ← (expr.evaluate chunk).bind fun col =>
    match col with
    | .array a => .ok a
    | .scalar s => scalar_to_array s (batchLen chunk)
  match bitvector with
  | .boolean mask => filterChunk chunk mask
  | _ => .error .NoBooleanArrayForFilter

/-- SelectionIterator: an Err item passes through and_then unchanged. -/
def selectionStream (expr : PhysExpr) (stream : List (Except Error Batch)) :
    List (Except Error Batch) :=
  stream.map fun res => res.bind (selectBatch expr)

/-- PhysicalPlan::execute. Scan, Projection and Selection build lazy
streams; AggregateExec eagerly drains its child inside execute (and can
therefore panic before yielding its single output item). -/
def PhysicalPlan.execute : PhysicalPlan → RunResult (List (Except Error Batch))
  | .scan src proj => .ok (scanStream src proj)
  | .projection child exprs => child.execute.map (projectionStream exprs)
  | .selection child expr => child.execute.map (selectionStream expr)
  | .aggregate child groupExprs aggExprs =>
    child.execute.bind fun stream =>
      (aggExecute groupExprs aggExprs stream).map fun b => [.ok b]

/- ## DataFrame (dataframe.rs) -/

structure DataFrame where
  plan : LogicalPlan
  deriving DecidableEq

/-- collect::<Result<Vec<Chunk>>> over the batch iterator: stop at the
first error. -/
def collectBatches (stream : List (Except Error Batch)) : Except Error (List Batch) :=
  stream.mapM id

/-- DataFrame::execute (query-engine/src/dataframe.rs): lower the plan and
collect the physical iterator; the optimizer is not invoked. -/
def DataFrame.execute (df : DataFrame) : RunResult (Except Error (List Batch)) :=
  match df.plan.to_physical_plan with
  | .error e => .ok (.error e)
  | .ok pp => pp.execute.map collectBatches

/-- The pipeline written as the composition collect, physical execute,
lowering (without optimize), for the amended claim C3. -/
def lowerThenRun (p : LogicalPlan) : RunResult (Except Error (List Batch)) :=
  (p.to_physical_plan.map PhysicalPlan.execute).casesOn
    (fun e => .ok (.error e))
    (fun r => r.map collectBatches)

/-- The pipeline the claim describes (collect after physical execute after
lowering after optimize); this definition follows the claim's words, to be
compared with DataFrame.execute which is transcribed from the source. -/
def executeAsClaimed (df : DataFrame) : RunResult (Except Error (List Batch)) :=
  match df.plan.optimize.to_physical_plan with
  | .error e => .ok (.error e)
  | .ok pp => pp.execute.map collectBatches

/- ## Theorems -/

@[simp]
theorem except_ok_bind (a : α) (f : α → Except ε β) :
    (Except.ok a : Except ε α) >>= f = f a := rfl

@[simp]
theorem except_bind_ok_fn (a : α) (f : α → Except ε β) :
    Except.bind (Except.ok a) f = f a := rfl

@[simp]
theorem except_bind_error_fn (e : ε) (f : α → Except ε β) :
    Except.bind (Except.error e) f = .error e := rfl

@[simp]
theorem except_map_ok_fn (a : α) (f : α → β) :
    Except.map f (Except.ok a : Except ε α) = .ok (f a) := rfl

@[simp]
theorem except_map_error_fn (e : ε) (f : α → β) :
    Except.map f (Except.error e : Except ε α) = .error e := rfl

@[simp]
theorem except_error_bind (e : ε) (f : α → Except ε β) :
    (Except.error e : Except ε α) >>= f = .error e := rfl

@[simp]
theorem runresult_ok_bind (a : α) (f : α → RunResult β) :
    (RunResult.ok a : RunResult α) >>= f = f a := rfl

@[simp]
theorem runresult_panicked_bind (m : String) (f : α → RunResult β) :
    (RunResult.panicked m : RunResult α) >>= f = .panicked m := rfl

/-- C5: for every binary comparison and arithmetic physical expression
whose operands both evaluate to arrays, a length mismatch yields the
DifferentSizes error and equal lengths yield the elementwise kernel
result. -/
theorem C5_binary_array_dispatch (ck : CmpKind) (mk : MathKind) (l r : PhysExpr)
    (input : Batch) (la ra : ArrayValue)
    (hL : l.evaluate input = .ok (.array la))
    (hR : r.evaluate input = .ok (.array ra)) :
    (la.len = ra.len →
      (PhysExpr.cmp ck l r).evaluate input = .ok (.array (cmpKernel ck la ra)) ∧
      (PhysExpr.math mk l r).evaluate input = .ok (.array (mathKernel mk la ra))) ∧
    (la.len ≠ ra.len →
      (PhysExpr.cmp ck l r).evaluate input =
        .error (.DifferentSizes la.debugStr ra.debugStr) ∧
      (PhysExpr.math mk l r).evaluate input =
        .error (.DifferentSizes la.debugStr ra.debugStr)) := by
  constructor <;> intro h <;>
    exact ⟨by simp [PhysExpr.evaluate, hL, hR, h], by simp [PhysExpr.evaluate, hL, hR, h]⟩

/-- Witness for C5 at a concrete batch with columns of lengths 1 and 2. -/
theorem C5_binary_array_dispatch_witness :
    (PhysExpr.column 0).evaluate [.int32 [some 1], .int32 [some 2, some 3]] =
      .ok (.array (.int32 [some 1])) ∧
    (PhysExpr.cmp .eq (.column 0) (.column 1)).evaluate
        [.int32 [some 1], .int32 [some 2, some 3]] =
      .error (.DifferentSizes (ArrayValue.int32 [some 1]).debugStr
        (ArrayValue.int32 [some 2, some 3]).debugStr) :=
  ⟨by decide,
    ((C5_binary_array_dispatch .eq .add (.column 0) (.column 1)
      [.int32 [some 1], .int32 [some 2, some 3]]
      (.int32 [some 1]) (.int32 [some 2, some 3])
      (by decide) (by decide)).2 (by decide)).1⟩

/-- C6 as amended: a ColumnExpression over an in-bounds index returns the
column as an array when its physical type is Int32, Float64, Utf8 or Bool,
and for any other physical type it returns PrimitiveTypeNotSuported (with
the literal payload Int32), not PhysicalTypeNotSuported. -/
theorem C6_column_evaluate (i : Nat) (input : Batch) (a : ArrayValue)
    (h : input[i]? = some a) :
    (a.physicalType ∈ [PhysType.int32, .float64, .utf8, .boolean] →
      (PhysExpr.column i).evaluate input = .ok (.array a)) ∧
    (a.physicalType ∉ [PhysType.int32, .float64, .utf8, .boolean] →
      (PhysExpr.column i).evaluate input =
        .error (.PrimitiveTypeNotSuported "Int32")) := by
  cases a <;> simp [PhysExpr.evaluate, h, ArrayValue.physicalType]

/-- Witness for C6 at a concrete one-column batch. -/
theorem C6_column_evaluate_witness :
    ([ArrayValue.int32 [some 5]][0]? = some (ArrayValue.int32 [some 5])) ∧
    (PhysExpr.column 0).evaluate [.int32 [some 5]] =
      .ok (.array (.int32 [some 5])) :=
  ⟨by decide,
    (C6_column_evaluate 0 [.int32 [some 5]] (.int32 [some 5]) (by decide)).1
      (by decide)⟩

/-- Counterexample to C6 as stated: on a Timestamp column the evaluate
error is the PrimitiveTypeNotSuported kind, not PhysicalTypeNotSuported. -/
theorem C6_counterexample :
    (PhysExpr.column 0).evaluate [.timestamp [some 0]] =
      .error (.PrimitiveTypeNotSuported "Int32") ∧
    Error.isPhysicalTypeNotSuported (.PrimitiveTypeNotSuported "Int32") = false := by
  decide

/-- C9: scalar-to-array inflation succeeds for all four supported scalar
types with a present value, producing the constant array of the requested
length, and the Projection and Selection operators use this inflation when
an expression yields a Scalar. -/
theorem C9_scalar_inflation (n : Nat) (v : Int) (q : Rat) (s : String) (b : Bool)
    (chunk : Batch) :
    scalar_to_array (.int32 (some v)) n = .ok (.int32 (List.replicate n (some v))) ∧
    scalar_to_array (.float64 (some q)) n =
      .ok (.float64 (List.replicate n (some q))) ∧
    scalar_to_array (.utf8 (some s)) n = .ok (.utf8 (List.replicate n (some s))) ∧
    scalar_to_array (.boolean (some b)) n =
      .ok (.boolean (List.replicate n (some b))) ∧
    projectionStream [.litInt v] [.ok chunk] =
      [.ok [.int32 (List.replicate (batchLen chunk) (some v))]] ∧
    selectionStream (.litBool true) [.ok [.int32 [some 1, some 2]]] =
      [.ok [.int32 [some 1, some 2]]] := by
  exact ⟨rfl, rfl, rfl, rfl, rfl, by decide⟩

/-- C10: a non-commutative arithmetic expression evaluated on a Scalar
left operand and an Array right operand swaps the operands into the
broadcast kernel, so Sub yields elementwise array-minus-scalar and Div
yields elementwise array-divided-by-scalar. -/
theorem C10_scalar_array_operand_swap (mk : MathKind) (l r : PhysExpr)
    (input : Batch) (ls : ScalarValue) (ra : ArrayValue) (s : Int)
    (xs : List (Option Int))
    (hL : l.evaluate input = .ok (.scalar ls))
    (hR : r.evaluate input = .ok (.array ra)) :
    (PhysExpr.math mk l r).evaluate input =
      .ok (.array (mathScalarKernel mk ra ls)) ∧
    (ls = .int32 (some s) → ra = .int32 xs →
      (PhysExpr.math .sub l r).evaluate input =
        .ok (.array (.int32 (xs.map (Option.map fun x => wrap32 (x - s))))) ∧
      (s ≠ 0 →
        (PhysExpr.math .div l r).evaluate input =
          .ok (.array (.int32 (xs.map (Option.map fun x => wrap32 (Int.tdiv x s))))))) := by
  refine ⟨by simp [PhysExpr.evaluate, hL, hR], ?_⟩
  rintro rfl rfl
  refine ⟨?_, fun _ => ?_⟩ <;>
    simp [PhysExpr.evaluate, hL, hR, mathScalarKernel, i32op]

/-- C1: the claimed grouped Max/Min aggregation is broken in the code.
A fresh accumulator's state is the NullScalar, and the comparison match in
accumulate has no arm for a (Primitive, Null) pair, so the very first
accumulate call over an Int32 (or Float64) column always returns
PrimitiveTypeNotSuported instead of folding the masked values; the unwrap
in AggregateExec::execute then panics, so the per-group maximum demanded
by the claim (and by the repository's own test_max) is never produced.
The last conjunct evaluates the full operator on a one-batch input shaped
like the test scenario. -/
theorem C1_max_accumulator_first_accumulate_errors :
    (∀ (xs : List (Option Int)) (validity : Option (List Bool)),
      (freshAccumulator 0).accumulate .max [.array (.int32 xs)] validity =
        .err (.PrimitiveTypeNotSuported "Int32") ∧
      (freshAccumulator 0).accumulate .min [.array (.int32 xs)] validity =
        .err (.PrimitiveTypeNotSuported "Int32")) ∧
    (∀ (xs : List (Option Rat)) (validity : Option (List Bool)),
      (freshAccumulator 0).accumulate .max [.array (.float64 xs)] validity =
        .err (.PrimitiveTypeNotSuported "Float64")) ∧
    aggExecute [.column 0] [(.max, .column 1)]
        [.ok [.boolean [some true, some false], .int32 [some 7, some 3]]] =
      .panicked unwrapErrMsg := by
  refine ⟨fun xs validity => ⟨?_, ?_⟩, fun xs validity => ?_, by decide⟩ <;>
    cases validity <;>
      simp [AccState.accumulate, freshAccumulator, maskArray, aggScalarKernel,
        ScalarValue.dataType, DataTy.debugStr]

/-- C4 as amended: ScanExec lifts reader errors into ArrowError, and the
Projection and Selection iterators pass an erroneous child item through
unchanged; AggregateExec however silently skips erroneous child items (the
Err arm of its drain is a no-op), so errors do not propagate through it. -/
theorem C4_error_propagation (exprs : List PhysExpr) (expr : PhysExpr)
    (stream : List (Except Error Batch)) (i : Nat) (e : Error)
    (ds : DataSource) (proj : Option (Finset String)) (s : String)
    (groupExprs : List PhysExpr) (aggExprs : List (AggKind × PhysExpr))
    (hm : AggMap) (rest : List (Except Error Batch)) :
    (stream[i]? = some (.error e) →
      (projectionStream exprs stream)[i]? = some (.error e) ∧
      (selectionStream expr stream)[i]? = some (.error e)) ∧
    (ds.batches[i]? = some (.error s) →
      (scanStream ds proj)[i]? = some (.error (.ArrowError s))) ∧
    aggLoop groupExprs aggExprs hm (.error e :: rest) =
      aggLoop groupExprs aggExprs hm rest := by
  refine ⟨fun h => ⟨?_, ?_⟩, fun h => ?_, rfl⟩
  · simp [projectionStream, h]
  · simp [selectionStream, h]
  · cases proj <;> simp [scanStream, DataSource.scan, h]

/-- Witness for C4 at a concrete erroneous stream item. -/
theorem C4_error_propagation_witness :
    (([Except.error (Error.ArrowError "boom")] : List (Except Error Batch))[0]? =
      some (Except.error (Error.ArrowError "boom"))) ∧
    (projectionStream [] [.error (.ArrowError "boom")])[0]? =
      some (.error (.ArrowError "boom")) :=
  ⟨by decide,
    ((C4_error_propagation [] (.litBool true) [.error (.ArrowError "boom")] 0
      (.ArrowError "boom") ⟨[], []⟩ none "x" [] [] [] []).1 (by decide)).1⟩

/-- Counterexample to C4 as stated: AggregateExec swallows the first error
of its child stream and aggregates the remaining good batch as if nothing
happened — the error never reaches the caller. -/
theorem C4_counterexample :
    aggExecute [.column 0] []
        [.error (.ArrowError "boom"), .ok [.int32 [some 1, some 2]]] =
      .ok [.int32 [some 1, some 2]] := by
  decide

/-- C8: the schema of an Aggregate node is the group-expression fields, in
order, followed by the aggregate-expression fields, in order, all derived
against the child. -/
theorem C8_aggregate_schema_order (c : LogicalPlan) (g a : List LogicalExpr)
    (gf af : Schema)
    (hg : listFields c.schema g = .ok gf)
    (ha : listFields c.schema a = .ok af) :
    (LogicalPlan.aggregate c g a).schema = .ok (gf ++ af) := by
  simp only [LogicalPlan.schema, listFields] at *
  rw [List.mapM_append, hg, except_ok_bind, ha, except_ok_bind]
  rfl

/-- Witness for C8: group by country, aggregate max salary. -/
theorem C8_aggregate_schema_order_witness :
    listFields (LogicalPlan.scan "t" ⟨[⟨"country", .utf8, true⟩,
        ⟨"salary", .float64, true⟩], []⟩ none).schema [.column "country"] =
      .ok [⟨"country", .utf8, true⟩] ∧
    (LogicalPlan.aggregate
        (.scan "t" ⟨[⟨"country", .utf8, true⟩, ⟨"salary", .float64, true⟩], []⟩ none)
        [.column "country"] [.agg .max (.column "salary")]).schema =
      .ok [⟨"country", .utf8, true⟩, ⟨"max", .float64, false⟩] :=
  ⟨by decide,
    C8_aggregate_schema_order
      (.scan "t" ⟨[⟨"country", .utf8, true⟩, ⟨"salary", .float64, true⟩], []⟩ none)
      [.column "country"] [.agg .max (.column "salary")]
      [⟨"country", .utf8, true⟩] [⟨"max", .float64, false⟩]
      (by decide) (by decide)⟩

/-- Witness for C10: 5 - [7, null] evaluates to [7 - 5, null] = [2, null]. -/
theorem C10_scalar_array_operand_swap_witness :
    (PhysExpr.litInt 5).evaluate [.int32 [some 7, none]] =
      .ok (.scalar (.int32 (some 5))) ∧
    (PhysExpr.math .sub (.litInt 5) (.column 0)).evaluate [.int32 [some 7, none]] =
      .ok (.array (.int32 [some 2, none])) := by
  refine ⟨by decide, ?_⟩
  have h := (C10_scalar_array_operand_swap .sub (.litInt 5) (.column 0)
    [.int32 [some 7, none]] (.int32 (some 5)) (.int32 [some 7, none]) 5
    [some 7, none] (by decide) (by decide)).2 rfl rfl
  simpa using h.1

/- ## Projection pushdown: supporting definitions and lemmas -/

/-- The projection carried by the (unique, bottom-most) Scan of a plan. -/
def scanProjectionOf : LogicalPlan → Option (Finset String)
  | .scan _ _ proj => proj
  | .projection child _ => scanProjectionOf child
  | .selection child _ => scanProjectionOf child
  | .aggregate child _ _ => scanProjectionOf child

/-- The column names occurring as Column leaves in the expressions of the
nodes above the Scan. -/
def columnsAbove : LogicalPlan → Finset String
  | .scan _ _ _ => ∅
  | .projection child exprs => extractAllColumns exprs ∅ ∪ columnsAbove child
  | .selection child expr => extractColumns expr ∅ ∪ columnsAbove child
  | .aggregate child groupExprs aggExprs =>
    extractAllColumns groupExprs ∅ ∪ extractAllColumns aggExprs ∅ ∪ columnsAbove child

theorem extractColumns_union (e : LogicalExpr) (s : Finset String) :
    extractColumns e s = extractColumns e ∅ ∪ s := by
  induction e generalizing s with
  | column n => simp [extractColumns, Finset.insert_eq]
  | litBool v => simp [extractColumns]
  | litString v => simp [extractColumns]
  | litInt v => simp [extractColumns]
  | litFloat v => simp [extractColumns]
  | bbin k l r ihl ihr =>
    simp only [extractColumns]
    rw [ihr (extractColumns l s), ihl s, ihr (extractColumns l ∅)]
    ext x
    simp only [Finset.mem_union]
    tauto
  | mbin k l r ihl ihr =>
    simp only [extractColumns]
    rw [ihr (extractColumns l s), ihl s, ihr (extractColumns l ∅)]
    ext x
    simp only [Finset.mem_union]
    tauto
  | agg k e ih => simp only [extractColumns]; exact ih s

theorem extractAllColumns_union (es : List LogicalExpr) (s : Finset String) :
    extractAllColumns es s = extractAllColumns es ∅ ∪ s := by
  induction es generalizing s with
  | nil => simp [extractAllColumns]
  | cons e es ih =>
    simp only [extractAllColumns, List.foldl_cons]
    rw [show (List.foldl (fun s e => extractColumns e s) (extractColumns e s) es) =
          extractAllColumns es (extractColumns e s) from rfl,
        show (List.foldl (fun s e => extractColumns e s) (extractColumns e ∅) es) =
          extractAllColumns es (extractColumns e ∅) from rfl,
        ih (extractColumns e s), ih (extractColumns e ∅),
        extractColumns_union e s]
    ext x
    simp only [Finset.mem_union]
    tauto

theorem push_down_scanProjection (p : LogicalPlan) (s : Finset String) :
    scanProjectionOf (p.push_down s) =
      some ((scanProjectionOf p).getD ∅ ∪ columnsAbove p ∪ s) := by
  induction p generalizing s with
  | scan path src proj =>
    cases proj <;> simp [LogicalPlan.push_down, scanProjectionOf, columnsAbove]
  | projection child exprs ih =>
    simp only [LogicalPlan.push_down, scanProjectionOf, columnsAbove, ih]
    rw [extractAllColumns_union]
    congr 1
    ext x
    simp only [Finset.mem_union]
    tauto
  | selection child expr ih =>
    simp only [LogicalPlan.push_down, scanProjectionOf, columnsAbove, ih]
    rw [extractColumns_union]
    congr 1
    ext x
    simp only [Finset.mem_union]
    tauto
  | aggregate child groupExprs aggExprs ih =>
    simp only [LogicalPlan.push_down, scanProjectionOf, columnsAbove, ih]
    rw [extractAllColumns_union aggExprs,
        extractAllColumns_union groupExprs s]
    congr 1
    ext x
    simp only [Finset.mem_union]
    tauto

/-- C2: after optimize, the Scan carries exactly the union of its original
projection (if any) with the Column leaves of the expressions above it,
and in particular that projection set covers every referenced column. -/
theorem C2_pushdown_scan_projection (p : LogicalPlan) :
    scanProjectionOf p.optimize =
      some ((scanProjectionOf p).getD ∅ ∪ columnsAbove p) ∧
    ∀ n, n ∈ columnsAbove p → n ∈ (scanProjectionOf p.optimize).getD ∅ := by
  have h := push_down_scanProjection p ∅
  constructor
  · simpa [LogicalPlan.optimize] using h
  · intro n hn
    rw [LogicalPlan.optimize, h]
    simp [hn]

/-- Witness for C2 on the plan filter(id = 4) over a bare scan: the
rewritten projection contains exactly the referenced column id. -/
theorem C2_pushdown_scan_projection_witness :
    ("id" ∈ columnsAbove (LogicalPlan.selection
      (.scan "t" ⟨[⟨"id", .int32, true⟩], []⟩ none)
      (.bbin .eq (.column "id") (.litInt 4)))) ∧
    "id" ∈ (scanProjectionOf (LogicalPlan.selection
      (.scan "t" ⟨[⟨"id", .int32, true⟩], []⟩ none)
      (.bbin .eq (.column "id") (.litInt 4))).optimize).getD ∅ :=
  ⟨by decide,
    (C2_pushdown_scan_projection (LogicalPlan.selection
      (.scan "t" ⟨[⟨"id", .int32, true⟩], []⟩ none)
      (.bbin .eq (.column "id") (.litInt 4)))).2 "id" (by decide)⟩

theorem push_down_idem (p : LogicalPlan) (s : Finset String) :
    (p.push_down s).push_down s = p.push_down s := by
  induction p generalizing s with
  | scan path src proj =>
    cases proj <;>
      · simp only [LogicalPlan.push_down]
        congr 2
        ext x
        simp only [Finset.mem_union]
        tauto
  | projection child exprs ih =>
    simp only [LogicalPlan.push_down]
    rw [ih (extractAllColumns exprs s)]
  | selection child expr ih =>
    simp only [LogicalPlan.push_down]
    rw [ih (extractColumns expr s)]
  | aggregate child groupExprs aggExprs ih =>
    simp only [LogicalPlan.push_down]
    rw [ih (extractAllColumns aggExprs (extractAllColumns groupExprs s))]

/-- C7: applying projection pushdown twice yields the same plan as applying
it once (plans compared with the scan projection as the set of names the
source stores in its HashSet). -/
theorem C7_optimize_idempotent (p : LogicalPlan) :
    p.optimize.optimize = p.optimize :=
  push_down_idem p ∅

/- ## C3: DataFrame::execute does not optimize -/

/-- A one-column, one-batch data source for the C3 separation. -/
def c3DataSource : DataSource :=
  ⟨[⟨"a", .int32, true⟩], [.ok [.int32 [some 1]]]⟩

/-- The dataframe over a bare scan of that source. -/
def c3Frame : DataFrame := ⟨.scan "t" c3DataSource none⟩

/-- Helper: the mapM loop over a list of Ok items collects them all. -/
theorem mapM_loop_ok_batches (bs acc : List Batch) :
    List.mapM.loop (m := Except Error) id (bs.map Except.ok) acc =
      .ok (acc.reverse ++ bs) := by
  induction bs generalizing acc with
  | nil => simp [List.mapM.loop]; rfl
  | cons b bs ih => simp [List.mapM.loop, ih]

/-- Helper: collecting a stream of Ok batches returns them all. -/
theorem collectBatches_map_ok (bs : List Batch) :
    collectBatches (bs.map .ok) = .ok bs := by
  have h := mapM_loop_ok_batches bs []
  simpa [collectBatches, List.mapM] using h

/-- Helper: the scan error-lifting map leaves a stream of Ok batches
unchanged. -/
theorem scanLift_map_ok (bs : List Batch) :
    ((bs.map Except.ok).map fun r =>
      match r with
      | .ok b => Except.ok b
      | .error s => Except.error (Error.ArrowError s)) = bs.map Except.ok := by
  induction bs with
  | nil => rfl
  | cons b bs ih => simp [ih]

/-- C3 as amended: execute lowers the dataframe's logical plan directly
and drains the physical iterator to completion — the optimizer is not
applied first. -/
theorem C3_execute_lowers_without_optimize (df : DataFrame) (path : String)
    (ds : DataSource) (bs : List Batch) (hds : ds.batches = bs.map .ok) :
    df.execute = lowerThenRun df.plan ∧
    (DataFrame.mk (.scan path ds none)).execute = .ok (.ok bs) := by
  constructor
  · cases h : df.plan.to_physical_plan <;>
      simp [DataFrame.execute, lowerThenRun, h]
  · simp only [DataFrame.execute, LogicalPlan.to_physical_plan,
      PhysicalPlan.execute, scanStream, DataSource.scan, hds, RunResult.map]
    rw [scanLift_map_ok, collectBatches_map_ok]

/-- Witness for C3 on the concrete one-batch source. -/
theorem C3_execute_lowers_without_optimize_witness :
    (c3DataSource.batches = ([[ArrayValue.int32 [some 1]]] : List Batch).map .ok) ∧
    (DataFrame.mk (.scan "t" c3DataSource none)).execute =
      .ok (.ok [[.int32 [some 1]]]) :=
  ⟨by decide,
    (C3_execute_lowers_without_optimize c3Frame "t" c3DataSource
      [[.int32 [some 1]]] (by decide)).2⟩

/-- Counterexample to C3 as stated: on a bare scan, execute returns the
scanned column, while the optimize-then-lower pipeline the claim describes
rewrites the scan projection to the empty set and returns an empty batch;
the two pipelines disagree. -/
theorem C3_counterexample :
    c3Frame.execute = .ok (.ok [[.int32 [some 1]]]) ∧
    executeAsClaimed c3Frame = .ok (.ok [[]]) ∧
    c3Frame.execute ≠ executeAsClaimed c3Frame := by
  refine ⟨by decide, ?_, ?_⟩ <;>
    simp [executeAsClaimed, c3Frame, c3DataSource, LogicalPlan.optimize,
      LogicalPlan.push_down, LogicalPlan.to_physical_plan, PhysicalPlan.execute,
      scanStream, DataSource.scan, collectBatches, DataFrame.execute,
      RunResult.map, List.mapM_cons]
  · rfl
  · decide

end QueryEngine
